import Mathlib

/-!
Verification development for the Switzerland render-scheduler core
(src/core/utils.js and its newer unnamed revision).

The JavaScript source is shallowly embedded: JavaScript objects become
association sequences over string keys where a later binding shadows an
earlier one (so object spread is append), promises become explicit status
values, thrown errors become an `Except` error component, and the
per-instance WeakMap side tables (previous props, error-handler
registration) together with the lifecycle state, task queue and observable
effects (logs, notifications, visual flags, view renders) become fields of
an explicit per-instance state record.
-/

set_option maxHeartbeats 1000000

namespace Switzerland

/-- The kinds of error values the core distinguishes.  `cancel` embeds the
distinguished `CancelError` raised by the `abort` helper; every other thrown
value is a plain error carrying its message.  Cancellation is recognised by
the constructor (identity / kind), never by the message text. -/
inductive ErrorV where
  | cancel
  | plain (msg : String)
deriving DecidableEq, Repr

mutual

/-- JavaScript values as the core manipulates them: primitives, objects,
references to host nodes, the instance-bound helper closures placed into
props snapshots, opaque handler functions, and error values. -/
inductive Value where
  | vNull
  | vUndef
  | vBool (b : Bool)
  | vNum (n : Int)
  | vStr (s : String)
  | vObj (fields : Obj)
  | vNode (id : Nat)
  | vRenderBound (id : Nat)
  | vDispatchBound (id : Nat)
  | vResolvedHelper (task : Nat)
  | vAbortHelper
  | vRecoveryRender
  | vFn (id : Nat)
  | vErr (e : ErrorV)
deriving DecidableEq

/-- A JavaScript object: a sequence of string-keyed fields where a later
binding shadows an earlier one, so the spread of one object after another is
append. -/
inductive Obj where
  | onil
  | ocons (key : String) (val : Value) (rest : Obj)
deriving DecidableEq

end

/-- Induction over the field spine of an object (the mutual recursor of
`Value`/`Obj` has two motives, which the `induction` tactic cannot use
directly). -/
@[induction_eliminator]
theorem Obj.inductionOn {P : Obj → Prop} (hnil : P Obj.onil)
    (hcons : ∀ k v r, P r → P (Obj.ocons k v r)) : ∀ o, P o
  | Obj.onil => hnil
  | Obj.ocons k v r => hcons k v r (Obj.inductionOn hnil hcons r)

/-- Object spread: fields of the right operand shadow those of the left. -/
def Obj.append : Obj → Obj → Obj
  | Obj.onil, b => b
  | Obj.ocons k v r, b => Obj.ocons k v (Obj.append r b)

instance : Append Obj := ⟨Obj.append⟩

/-- Builds an object from a literal list of fields. -/
def Obj.ofList : List (String × Value) → Obj
  | [] => Obj.onil
  | (k, v) :: rest => Obj.ocons k v (Obj.ofList rest)

/-- Field lookup: the value of the last binding of the key, if any. -/
def Obj.get : Obj → String → Option Value
  | Obj.onil, _ => none
  | Obj.ocons k1 v rest, k =>
    match Obj.get rest k with
    | some v1 => some v1
    | none => if k1 = k then some v else none

/-- The JavaScript `in` operator on our objects: key presence. -/
def Obj.hasKey (o : Obj) (k : String) : Bool := (Obj.get o k).isSome

theorem Obj.append_eq (a b : Obj) : a ++ b = Obj.append a b := rfl

theorem Obj.get_append (a b : Obj) (k : String) :
    Obj.get (a ++ b) k =
      match Obj.get b k with
      | some v => some v
      | none => Obj.get a k := by
  induction a with
  | hnil =>
    cases h : Obj.get b k <;> simp [Obj.append_eq, Obj.append, Obj.get, h]
  | hcons k1 v r ih =>
    show Obj.get (Obj.ocons k1 v (r ++ b)) k = _
    simp only [Obj.get]
    rw [ih]
    cases h : Obj.get b k <;> cases h2 : Obj.get r k <;> simp [h, h2]

/-- The JavaScript dynamic test `typeof x === 'object'`: objects, `null`,
host nodes and error objects all have typeof `'object'`; the function-valued
helpers do not. -/
def typeofIsObject : Value → Bool
  | Value.vObj _ => true
  | Value.vNull => true
  | Value.vNode _ => true
  | Value.vErr _ => true
  | _ => false

/-- The own enumerable fields contributed when a value is spread into an
object literal: an object's fields; nothing for `null`, nodes or errors. -/
def spreadFields : Value → Obj
  | Value.vObj fields => fields
  | _ => Obj.onil

/-- A dispatched `CustomEvent`, as configured by `dispatchEvent`. -/
structure CustomEventV where
  name : String
  detail : Obj
  bubbles : Bool
  composed : Bool
deriving DecidableEq

/-- A host element: the events dispatched on it so far, and its policy for
the boolean that `node.dispatchEvent` returns (false iff some listener
cancelled the event). -/
structure HostNode where
  dispatched : List CustomEventV
  cancelPolicy : CustomEventV → Bool

/-- The custom event built by `dispatchEvent`: the payload itself when its
typeof is object, otherwise wrapped as a `value` field, spread and merged
with a `version` field set to 3, dispatched bubbling and composed. -/
def mkCustomEvent (name : String) (payload : Value) : CustomEventV :=
  { name := name
    detail :=
      spreadFields
          (if typeofIsObject payload then payload
           else Value.vObj (Obj.ofList [("value", payload)])) ++
        Obj.ofList [("version", Value.vNum 3)]
    bubbles := true
    composed := true }

/-- Embedding of `dispatchEvent` (unnamed revision, lines 32-41): builds the
custom event and dispatches it once on the node, returning the boolean
result of the node's dispatch. -/
def dispatchEvent (node : HostNode) (name : String) (payload : Value) :
    HostNode × Bool :=
  ({ node with dispatched := node.dispatched ++ [mkCustomEvent name payload] },
   node.cancelPolicy (mkCustomEvent name payload))

/-- Embedding of `getEventName`: prepends the package scope. -/
def getEventName (label : String) : String := "@switzerland/" ++ label

/-- The recovery-handler marker key exported by the rescue middleware (the
`handler` symbol imported at the top of utils.js); the executor probes
returned props for this key. -/
def handlerKey : String := "rescue.handler"

/-- The two lifecycle states of a component instance. -/
inductive Lifecycle where
  | normal
  | error
deriving DecidableEq, Repr

/-- The per-instance state: the two WeakMap side tables scoped to this node
(previous props and the error-handler registration), the lifecycle state and
task queue owned by the instance, and the instance's observable effects
(diagnostic logs, outbound notifications, view renders, visual flags). -/
structure CompState where
  lifecycle : Lifecycle
  previousProps : Option Obj
  errorHandlers : Option Obj
  queue : List Nat
  nextTask : Nat
  attached : Bool
  log : List ErrorV
  notifications : List String
  viewRenders : List Obj
  flags : List String
  nodeId : Nat
deriving DecidableEq

/-- The instance-bound fields appended (last, hence with highest precedence)
to the initial props snapshot by `getInitialProps`: the node itself, the
bound re-entry `render`, the bound outbound `dispatch`, the previous
snapshot (`null` when absent), the `resolved` helper closed over this pass's
scheduled task, and the `abort` helper. -/
def helpersObj (nodeId : Nat) (prev : Option Obj) (taskId : Nat) : Obj :=
  Obj.ofList
    [("node", Value.vNode nodeId),
     ("render", Value.vRenderBound nodeId),
     ("dispatch", Value.vDispatchBound nodeId),
     ("prevProps",
      match prev with
      | some p => Value.vObj p
      | none => Value.vNull),
     ("resolved", Value.vResolvedHelper taskId),
     ("abort", Value.vAbortHelper)]

/-- Embedding of `getInitialProps` (unnamed revision, lines 137-154): the
previous snapshot (or nothing), spread-overridden by the caller-supplied
merge props, spread-overridden by the instance-bound fields. -/
def getInitialProps (nodeId : Nat) (prev : Option Obj) (mergeProps : Obj)
    (taskId : Nat) : Obj :=
  (match prev with
   | some p => p
   | none => Obj.onil) ++ mergeProps ++ helpersObj nodeId prev taskId

/-- The initial props snapshot exactly as claim C8 words it: previous
fields, overridden by overrides, overridden by only the five listed helpers
(`render`, `dispatch`, `prevProps`, `resolved`, `abort`).  Declared solely
to compare the claim's wording against `getInitialProps`. -/
def claimInitialProps (nodeId : Nat) (prev : Option Obj) (mergeProps : Obj)
    (taskId : Nat) : Obj :=
  (match prev with
   | some p => p
   | none => Obj.onil) ++ mergeProps ++
    Obj.ofList
      [("render", Value.vRenderBound nodeId),
       ("dispatch", Value.vDispatchBound nodeId),
       ("prevProps",
        match prev with
        | some p => Value.vObj p
        | none => Value.vNull),
       ("resolved", Value.vResolvedHelper taskId),
       ("abort", Value.vAbortHelper)]

/-- Semantics of invoking the `abort` helper from `getInitialProps`: it
throws a `CancelError` unconditionally. -/
def callAbort : Except ErrorV Value := Except.error ErrorV.cancel

/-- What a middleware step does with the props it receives: throw
synchronously, return a plain props object, or return a promise that later
resolves to a props object or rejects. -/
inductive MidOut where
  | throws (e : ErrorV)
  | now (o : Obj)
  | later (r : Except ErrorV Obj)

/-- A middleware step. -/
abbrev Middleware := Obj → MidOut

/-- The props handed to each middleware step: the accumulated props
extended with a self-reference field named `props`. -/
def stepProps (accum : Obj) : Obj :=
  accum ++ Obj.ofList [("props", Value.vObj accum)]

/-- One pass of the middleware fold of `handleMiddleware` (unnamed
revision, lines 164-174): the accumulator threads left-to-right; a
synchronously returned props object is probed for the recovery-handler
marker and, when the marker is present, overwrites the instance's
error-handler registration whole; a promise-valued result is not probed
(the `in` check applies to the promise object, which never carries the
key) and its resolved value becomes the next accumulator; a synchronous
throw or a rejection aborts the fold with that error. -/
def runSteps : List Middleware → Obj → CompState → CompState × Except ErrorV Obj
  | [], accum, st => (st, Except.ok accum)
  | m :: rest, accum, st =>
    match m (stepProps accum) with
    | MidOut.throws e => (st, Except.error e)
    | MidOut.now o =>
      runSteps rest o
        (if Obj.hasKey o handlerKey then { st with errorHandlers := some o }
         else st)
    | MidOut.later (Except.error e) => (st, Except.error e)
    | MidOut.later (Except.ok o) => runSteps rest o st

/-- Embedding of `handleMiddleware` (unnamed revision, lines 163-178): runs
the fold and, when every step completed without throwing, persists the
resulting snapshot as the instance's previous props and returns it; a
failed fold returns the error and performs no persist. -/
def handleMiddleware (mids : List Middleware) (initialProps : Obj)
    (st : CompState) : CompState × Except ErrorV Obj :=
  match runSteps mids initialProps st with
  | (st1, Except.ok props) =>
    ({ st1 with previousProps := some props }, Except.ok props)
  | (st1, Except.error e) => (st1, Except.error e)

/-- Awaiting one step's result: a synchronous throw or a rejection is the
error; a plain object or a fulfilled promise is the value. -/
def awaitStep : MidOut → Except ErrorV Obj
  | MidOut.throws e => Except.error e
  | MidOut.now o => Except.ok o
  | MidOut.later r => r

/-- One step of the value-level fold: an already-failed accumulator stays
failed; otherwise the step runs on the accumulated props extended with the
self-reference field and its value is awaited. -/
def foldStep (acc : Except ErrorV Obj) (m : Middleware) : Except ErrorV Obj :=
  match acc with
  | Except.error e => Except.error e
  | Except.ok o => awaitStep (m (stepProps o))

/-- The middleware pipeline as a plain left fold over an accumulator
starting at the initial props: each step receives the accumulated props
extended with the self-reference field and its (possibly awaited) value
becomes the next accumulator; an error aborts the fold. -/
def pureFold (mids : List Middleware) (init : Obj) : Except ErrorV Obj :=
  mids.foldl foldStep (Except.ok init)

/-- The record of one invocation of a registered recovery handler: the
function value found under the marker key, and the props object it was
called with. -/
structure HandlerCall where
  fn : Option Value
  arg : Obj
deriving DecidableEq

/-- Embedding of `handleError` (unnamed revision, lines 188-208): with no
registration, one diagnostic log and nothing else; with a registration, the
previous props are persisted as the registered snapshot merged with the
error, and the registered handler is invoked once with the registered
snapshot plus the error plus the recovery render callback. -/
def handleError (st : CompState) (e : ErrorV) : CompState × Option HandlerCall :=
  match st.errorHandlers with
  | none => ({ st with log := st.log ++ [e] }, none)
  | some props =>
    ({ st with
        previousProps := some (props ++ Obj.ofList [("error", Value.vErr e)]) },
     some
       { fn := Obj.get props handlerKey
         arg :=
           props ++
             Obj.ofList
               [("error", Value.vErr e), ("render", Value.vRecoveryRender)] })

/-- Modelled from the spec: the status of one render pass's scheduled task
(the task handle / pending completion owned by the Task Registry, created by
the Render Orchestrator in src/core/impl/index.js, which is absent from
src/).  A task is pending while its pipeline runs, completes with the final
snapshot, or is pre-empted when it is dropped from the registry before its
commit. -/
inductive TaskStatus where
  | pending
  | completed (snapshot : Obj)
  | preempted
deriving DecidableEq

/-- Modelled from the spec: the value with which the scheduled-task promise
settles — the final snapshot on completion; `false` on pre-emption (the
pre-empted pass resolves `false`, matching the `resolution !== false` probe
in the `resolved` helper); no value yet while pending. -/
def taskValue : TaskStatus → Option Value
  | TaskStatus.pending => none
  | TaskStatus.completed s => some (Value.vObj s)
  | TaskStatus.preempted => some (Value.vBool false)

/-- The race inside the `resolved` helper (unnamed revision, lines 144-150):
`Promise.race` of the scheduled task against an already-fulfilled `false`.
The race settles immediately: with the task's value when the task has
already settled (its reaction is queued first), and with `false` while the
task is still pending. -/
def raceWithFalse (t : TaskStatus) : Value :=
  match taskValue t with
  | some v => v
  | none => Value.vBool false

/-- Embedding of the `resolved` helper: the settled result of the race,
compared against `false`.  The helper's own promise always settles (hence
`some`), carrying whether the race produced something other than `false`. -/
def resolvedHelper (t : TaskStatus) : Option Bool :=
  some (decide (raceWithFalse t ≠ Value.vBool false))

/-- The `resolved` helper exactly as claim C9 words it: it suspends until
the task settles (no result while pending) and then reports whether the
task actually completed.  Declared solely to compare the claim's wording
against `resolvedHelper`. -/
def resolvedPerClaim (t : TaskStatus) : Option Bool :=
  match t with
  | TaskStatus.pending => none
  | TaskStatus.completed _ => some true
  | TaskStatus.preempted => some false

/-- Whether a task status is a completion. -/
def TaskStatus.isCompleted : TaskStatus → Bool
  | TaskStatus.completed _ => true
  | _ => false

/-- The outcome of one call of the render entry point. -/
inductive RenderOutcome where
  | refused
  | completed (props : Obj)
  | cancelled
  | failed (e : ErrorV) (call : Option HandlerCall)
deriving DecidableEq

/-- Modelled from the spec: the Render Orchestrator's `render` entry point
(src/core/impl/index.js is absent from src/; only its tests are present).
Per spec section 4.5: if the lifecycle state is `error`, return immediately
with nothing changed; otherwise register a task, build the initial props
via `getInitialProps`, run the middleware executor, and then either commit
(view render, `resolved` visual flag and `resolved` notification, only when
attached), silently stop on the cancellation signal, or — for any other
error — transition the lifecycle to `error`, invoke the Error Recovery
Controller and still emit the `resolved` notification; the task is removed
from the registry in every completed branch.  This models the sequential
executions (no external drop between registration and completion). -/
def render (mids : List Middleware) (st : CompState) (overrideProps : Obj) :
    CompState × RenderOutcome :=
  if st.lifecycle = Lifecycle.error then (st, RenderOutcome.refused)
  else
    let taskId := st.nextTask
    let st1 : CompState :=
      { st with queue := st.queue ++ [taskId], nextTask := taskId + 1 }
    match handleMiddleware mids
        (getInitialProps st.nodeId st.previousProps overrideProps taskId) st1 with
    | (st2, Except.ok props) =>
      let st3 : CompState :=
        if st2.attached then
          { st2 with
              viewRenders := st2.viewRenders ++ [props]
              flags := st2.flags ++ ["resolved"]
              notifications := st2.notifications ++ [getEventName "resolved"] }
        else st2
      ({ st3 with queue := st3.queue.filter (fun t => t ≠ taskId) },
       RenderOutcome.completed props)
    | (st2, Except.error ErrorV.cancel) =>
      ({ st2 with queue := st2.queue.filter (fun t => t ≠ taskId) },
       RenderOutcome.cancelled)
    | (st2, Except.error (ErrorV.plain msg)) =>
      let st3 : CompState := { st2 with lifecycle := Lifecycle.error }
      let hres := handleError st3 (ErrorV.plain msg)
      let st5 : CompState :=
        { hres.1 with
            notifications := hres.1.notifications ++ [getEventName "resolved"]
            queue := hres.1.queue.filter (fun t => t ≠ taskId) }
      (st5, RenderOutcome.failed (ErrorV.plain msg) hres.2)

/-- A sequence of render calls, each with its own override props. -/
def renderSeq (mids : List Middleware) (st : CompState) (calls : List Obj) :
    CompState :=
  calls.foldl (fun s o => (render mids s o).1) st

/-- Embedding of the recovery `render` callback built by `handleError`
(unnamed revision, lines 203-206): it sets the lifecycle state to normal
and then delegates to the instance's render entry point with the supplied
override props. -/
def recoveryRender (mids : List Middleware) (st : CompState)
    (mergeProps : Obj) : CompState × RenderOutcome :=
  render mids { st with lifecycle := Lifecycle.normal } mergeProps

/-- The history of error-handler registrations along one fold, abstracted:
only a synchronously returned marker-bearing snapshot replaces the current
registration, and a failing step freezes it. -/
def lastReg : List Middleware → Obj → Option Obj → Option Obj
  | [], _, cur => cur
  | m :: rest, accum, cur =>
    match m (stepProps accum) with
    | MidOut.throws _ => cur
    | MidOut.now o =>
      lastReg rest o (if Obj.hasKey o handlerKey then some o else cur)
    | MidOut.later (Except.error _) => cur
    | MidOut.later (Except.ok o) => lastReg rest o cur

theorem foldl_foldStep_error (mids : List Middleware) (e : ErrorV) :
    mids.foldl foldStep (Except.error e) = Except.error e := by
  induction mids with
  | nil => rfl
  | cons m rest ih => simpa [foldStep] using ih

theorem runSteps_snd (mids : List Middleware) (accum : Obj) (st : CompState) :
    (runSteps mids accum st).2 = pureFold mids accum := by
  induction mids generalizing accum st with
  | nil => rfl
  | cons m rest ih =>
    have hfold : pureFold (m :: rest) accum =
        rest.foldl foldStep (awaitStep (m (stepProps accum))) := by
      simp [pureFold, foldStep]
    cases h : m (stepProps accum) with
    | throws e =>
      simp [runSteps, h, hfold, awaitStep, foldl_foldStep_error]
    | now o =>
      simp only [runSteps, h]
      rw [ih, hfold, h]
      simp [awaitStep, pureFold]
    | later r =>
      cases r with
      | error e => simp [runSteps, h, hfold, awaitStep, foldl_foldStep_error]
      | ok o =>
        simp only [runSteps, h]
        rw [ih, hfold, h]
        simp [awaitStep, pureFold]

theorem runSteps_fields (mids : List Middleware) (accum : Obj) (st : CompState) :
    (runSteps mids accum st).1.lifecycle = st.lifecycle ∧
    (runSteps mids accum st).1.previousProps = st.previousProps ∧
    (runSteps mids accum st).1.queue = st.queue ∧
    (runSteps mids accum st).1.nextTask = st.nextTask ∧
    (runSteps mids accum st).1.attached = st.attached ∧
    (runSteps mids accum st).1.log = st.log ∧
    (runSteps mids accum st).1.notifications = st.notifications ∧
    (runSteps mids accum st).1.viewRenders = st.viewRenders ∧
    (runSteps mids accum st).1.flags = st.flags ∧
    (runSteps mids accum st).1.nodeId = st.nodeId := by
  induction mids generalizing accum st with
  | nil => simp [runSteps]
  | cons m rest ih =>
    cases h : m (stepProps accum) with
    | throws e => simp [runSteps, h]
    | now o =>
      by_cases hk : Obj.hasKey o handlerKey
      · simpa [runSteps, h, hk] using ih o { st with errorHandlers := some o }
      · simpa [runSteps, h, hk] using ih o st
    | later r =>
      cases r with
      | error e => simp [runSteps, h]
      | ok o => simpa [runSteps, h] using ih o st

theorem runSteps_errorHandlers (mids : List Middleware) (accum : Obj)
    (st : CompState) :
    (runSteps mids accum st).1.errorHandlers =
      lastReg mids accum st.errorHandlers := by
  induction mids generalizing accum st with
  | nil => simp [runSteps, lastReg]
  | cons m rest ih =>
    cases h : m (stepProps accum) with
    | throws e => simp [runSteps, lastReg, h]
    | now o =>
      by_cases hk : Obj.hasKey o handlerKey
      · simpa [runSteps, lastReg, h, hk] using
          ih o { st with errorHandlers := some o }
      · simpa [runSteps, lastReg, h, hk] using ih o st
    | later r =>
      cases r with
      | error e => simp [runSteps, lastReg, h]
      | ok o => simpa [runSteps, lastReg, h] using ih o st

theorem lastReg_isSome (mids : List Middleware) (accum : Obj)
    (cur : Option Obj) (h : cur.isSome) : (lastReg mids accum cur).isSome := by
  induction mids generalizing accum cur with
  | nil => simpa [lastReg] using h
  | cons m rest ih =>
    cases hm : m (stepProps accum) with
    | throws e => simpa [lastReg, hm] using h
    | now o =>
      by_cases hk : Obj.hasKey o handlerKey
      · simp only [lastReg, hm, hk, if_true]
        exact ih o (some o) rfl
      · simp only [lastReg, hm, hk, Bool.false_eq_true, if_false]
        exact ih o cur h
    | later r =>
      cases r with
      | error e => simpa [lastReg, hm] using h
      | ok o =>
        simp only [lastReg, hm]
        exact ih o cur h

theorem handleMiddleware_snd (mids : List Middleware) (init : Obj)
    (st : CompState) :
    (handleMiddleware mids init st).2 = pureFold mids init := by
  rcases hr : runSteps mids init st with ⟨st1, r⟩
  have hs := runSteps_snd mids init st
  rw [hr] at hs
  cases r with
  | ok p => simpa [handleMiddleware, hr] using hs
  | error e => simpa [handleMiddleware, hr] using hs

theorem handleMiddleware_fields (mids : List Middleware) (init : Obj)
    (st : CompState) :
    (handleMiddleware mids init st).1.lifecycle = st.lifecycle ∧
    (handleMiddleware mids init st).1.queue = st.queue ∧
    (handleMiddleware mids init st).1.nextTask = st.nextTask ∧
    (handleMiddleware mids init st).1.attached = st.attached ∧
    (handleMiddleware mids init st).1.log = st.log ∧
    (handleMiddleware mids init st).1.notifications = st.notifications ∧
    (handleMiddleware mids init st).1.viewRenders = st.viewRenders ∧
    (handleMiddleware mids init st).1.flags = st.flags ∧
    (handleMiddleware mids init st).1.nodeId = st.nodeId := by
  rcases hr : runSteps mids init st with ⟨st1, r⟩
  have hf := runSteps_fields mids init st
  rw [hr] at hf
  obtain ⟨h1, h2, h3, h4, h5, h6, h7, h8, h9, h10⟩ := hf
  cases r with
  | ok p =>
    simp only [handleMiddleware, hr]
    exact ⟨h1, h3, h4, h5, h6, h7, h8, h9, h10⟩
  | error e =>
    simp only [handleMiddleware, hr]
    exact ⟨h1, h3, h4, h5, h6, h7, h8, h9, h10⟩

theorem handleMiddleware_errorHandlers (mids : List Middleware) (init : Obj)
    (st : CompState) :
    (handleMiddleware mids init st).1.errorHandlers =
      lastReg mids init st.errorHandlers := by
  rcases hr : runSteps mids init st with ⟨st1, r⟩
  have he := runSteps_errorHandlers mids init st
  rw [hr] at he
  cases r with
  | ok p => simpa [handleMiddleware, hr] using he
  | error e => simpa [handleMiddleware, hr] using he

theorem handleMiddleware_error_previousProps (mids : List Middleware)
    (init : Obj) (st : CompState) (e : ErrorV)
    (h : (handleMiddleware mids init st).2 = Except.error e) :
    (handleMiddleware mids init st).1.previousProps = st.previousProps := by
  rcases hr : runSteps mids init st with ⟨st1, r⟩
  have hf := (runSteps_fields mids init st).2.1
  rw [hr] at hf
  cases r with
  | ok p => simp [handleMiddleware, hr] at h
  | error e2 => simpa [handleMiddleware, hr] using hf

theorem handleError_fields (st : CompState) (e : ErrorV) :
    (handleError st e).1.lifecycle = st.lifecycle ∧
    (handleError st e).1.errorHandlers = st.errorHandlers ∧
    (handleError st e).1.queue = st.queue ∧
    (handleError st e).1.nextTask = st.nextTask ∧
    (handleError st e).1.notifications = st.notifications ∧
    (handleError st e).1.viewRenders = st.viewRenders ∧
    (handleError st e).1.flags = st.flags ∧
    (handleError st e).1.attached = st.attached ∧
    (handleError st e).1.nodeId = st.nodeId := by
  cases h : st.errorHandlers <;> simp [handleError, h]

theorem render_errorHandlers_pres (mids : List Middleware) (st : CompState)
    (o : Obj) (h : st.errorHandlers.isSome = true) :
    ((render mids st o).1).errorHandlers.isSome = true := by
  by_cases hlc : st.lifecycle = Lifecycle.error
  · simpa [render, hlc] using h
  · rcases hm : handleMiddleware mids
        (getInitialProps st.nodeId st.previousProps o st.nextTask)
        { st with queue := st.queue ++ [st.nextTask],
                  nextTask := st.nextTask + 1 } with ⟨st2, r⟩
    have hm2 : st2.errorHandlers.isSome = true := by
      have h4 : st2.errorHandlers = lastReg mids
          (getInitialProps st.nodeId st.previousProps o st.nextTask)
          st.errorHandlers := by
        have h5 := handleMiddleware_errorHandlers mids
          (getInitialProps st.nodeId st.previousProps o st.nextTask)
          { st with queue := st.queue ++ [st.nextTask],
                    nextTask := st.nextTask + 1 }
        rw [hm] at h5
        exact h5
      rw [h4]
      exact lastReg_isSome _ _ _ h
    cases r with
    | ok props =>
      cases hat : st2.attached <;> simp [render, hlc, hm, hat] <;> exact hm2
    | error e =>
      cases e with
      | cancel => simpa [render, hlc, hm] using hm2
      | plain msg =>
        have hh := (handleError_fields { st2 with lifecycle := Lifecycle.error }
          (ErrorV.plain msg)).2.1
        simp only [render, hlc, if_neg hlc, hm]
        simpa [hh] using hm2

/-- C10: for every host node, event name and payload,
`dispatchEvent(node)(name, payload)` dispatches exactly one custom event on
the node, with bubbles and composed both true, whose detail equals the
payload (wrapped as a `value` field when the payload's typeof is not
object) merged with a `version` field, and returns the boolean result of
the node's dispatch. -/
theorem C10_dispatchEvent_contract (node : HostNode) (name : String)
    (payload : Value) :
    (dispatchEvent node name payload).1.dispatched =
      node.dispatched ++ [mkCustomEvent name payload] ∧
    (dispatchEvent node name payload).2 =
      node.cancelPolicy (mkCustomEvent name payload) ∧
    (mkCustomEvent name payload).name = name ∧
    (mkCustomEvent name payload).bubbles = true ∧
    (mkCustomEvent name payload).composed = true ∧
    (∀ k, Obj.get (mkCustomEvent name payload).detail k =
      if "version" = k then some (Value.vNum 3)
      else
        Obj.get
          (spreadFields
            (if typeofIsObject payload then payload
             else Value.vObj (Obj.ofList [("value", payload)]))) k) ∧
    (typeofIsObject payload = false →
      Obj.get (mkCustomEvent name payload).detail "value" =
        some payload) := by
  have hdetail : ∀ k, Obj.get (mkCustomEvent name payload).detail k =
      if "version" = k then some (Value.vNum 3)
      else
        Obj.get
          (spreadFields
            (if typeofIsObject payload then payload
             else Value.vObj (Obj.ofList [("value", payload)]))) k := by
    intro k
    show Obj.get (spreadFields _ ++ Obj.ofList [("version", Value.vNum 3)]) k = _
    rw [Obj.get_append]
    by_cases hv : "version" = k
    · simp [Obj.ofList, Obj.get, hv]
    · simp [Obj.ofList, Obj.get, hv]
  refine ⟨rfl, rfl, rfl, rfl, rfl, hdetail, ?_⟩
  intro hob
  rw [hdetail "value"]
  simp [hob, spreadFields, Obj.ofList, Obj.get]

theorem C10_dispatchEvent_contract_witness :
    Obj.get
        (mkCustomEvent "tap" (Value.vStr "x")).detail "value" =
      some (Value.vStr "x") :=
  (C10_dispatchEvent_contract
      { dispatched := [], cancelPolicy := fun _ => true } "tap"
      (Value.vStr "x")).2.2.2.2.2.2 (by decide)

/-- C8 counterexample: on a fresh instance with no previous snapshot and no
overrides, the snapshot built by `getInitialProps` also binds the instance
node itself under the key `node`, which the claim's exhaustive list of
components (previous fields, overrides, and the five listed helpers) does
not produce. -/
theorem C8_counterexample :
    Obj.get (getInitialProps 0 none Obj.onil 0) "node" =
      some (Value.vNode 0) ∧
    Obj.get (claimInitialProps 0 none Obj.onil 0) "node" = none ∧
    getInitialProps 0 none Obj.onil 0 ≠ claimInitialProps 0 none Obj.onil 0 := by
  decide

/-- C8 amended: the initial props snapshot consists of the previous
snapshot's fields, overridden by the caller-supplied override props,
overridden in turn by the instance-bound fields — the instance node itself,
a bound re-entry render function, a bound outbound-dispatch function, the
previous snapshot (or null when absent), a resolved() helper, and an
abort() helper that raises the cancellation signal unconditionally; where
keys collide the instance-bound fields take precedence over overrides,
which take precedence over previous fields. -/
theorem C8_initialProps_amended (nodeId : Nat) (prev : Option Obj)
    (mergeProps : Obj) (taskId : Nat) :
    (∀ k, Obj.get (getInitialProps nodeId prev mergeProps taskId) k =
      match Obj.get (helpersObj nodeId prev taskId) k with
      | some v => some v
      | none =>
        match Obj.get mergeProps k with
        | some v => some v
        | none =>
          Obj.get
            (match prev with
             | some p => p
             | none => Obj.onil) k) ∧
    Obj.get (getInitialProps nodeId prev mergeProps taskId) "node" =
      some (Value.vNode nodeId) ∧
    Obj.get (getInitialProps nodeId prev mergeProps taskId) "render" =
      some (Value.vRenderBound nodeId) ∧
    Obj.get (getInitialProps nodeId prev mergeProps taskId) "dispatch" =
      some (Value.vDispatchBound nodeId) ∧
    Obj.get (getInitialProps nodeId prev mergeProps taskId) "prevProps" =
      some
        (match prev with
         | some p => Value.vObj p
         | none => Value.vNull) ∧
    Obj.get (getInitialProps nodeId prev mergeProps taskId) "resolved" =
      some (Value.vResolvedHelper taskId) ∧
    Obj.get (getInitialProps nodeId prev mergeProps taskId) "abort" =
      some Value.vAbortHelper ∧
    callAbort = Except.error ErrorV.cancel := by
  have hget : ∀ k, Obj.get (getInitialProps nodeId prev mergeProps taskId) k =
      match Obj.get (helpersObj nodeId prev taskId) k with
      | some v => some v
      | none =>
        match Obj.get mergeProps k with
        | some v => some v
        | none =>
          Obj.get
            (match prev with
             | some p => p
             | none => Obj.onil) k := by
    intro k
    show Obj.get
        (((match prev with
           | some p => p
           | none => Obj.onil) ++ mergeProps) ++ helpersObj nodeId prev taskId)
        k = _
    rw [Obj.get_append, Obj.get_append]
  refine ⟨hget, ?_, ?_, ?_, ?_, ?_, ?_, rfl⟩ <;>
    first
      | exact (hget "node").trans rfl
      | exact (hget "render").trans rfl
      | exact (hget "dispatch").trans rfl
      | exact (hget "prevProps").trans rfl
      | exact (hget "resolved").trans rfl
      | exact (hget "abort").trans rfl

/-- C9 counterexample: while the pass's task is still pending — neither
completed nor pre-empted — the resolved() helper does not stay suspended:
its race against an already-fulfilled false settles at once, yielding
false, whereas the claim's reading yields no resolution yet. -/
theorem C9_counterexample :
    resolvedHelper TaskStatus.pending = some false ∧
    resolvedPerClaim TaskStatus.pending = none := by
  decide

/-- C9 amended: the resolved() helper never suspends until the task
settles; it resolves immediately, to true exactly when the pass's task has
already completed, and to false while the task is still pending or after it
was pre-empted. -/
theorem C9_resolved_amended (t : TaskStatus) :
    resolvedHelper t = some t.isCompleted := by
  cases t <;>
    simp [resolvedHelper, raceWithFalse, taskValue, TaskStatus.isCompleted]

/-- A fresh, attached instance in the normal state, used as the concrete
starting point of the witnesses. -/
def baseState : CompState :=
  { lifecycle := Lifecycle.normal
    previousProps := none
    errorHandlers := none
    queue := []
    nextTask := 0
    attached := true
    log := []
    notifications := []
    viewRenders := []
    flags := []
    nodeId := 0 }

/-- C1: for every instance and error, handleError with no registration
emits exactly one diagnostic log of the error and changes no per-instance
state (previous props and the registration are untouched, no handler is
invoked); with a registration it persists the previous props as the
registered snapshot merged with the error and then invokes the registered
handler exactly once, with a props object equal to the registered snapshot
plus the error plus a render callback. -/
theorem C1_handleError_contract (st : CompState) (e : ErrorV) :
    (st.errorHandlers = none →
      (handleError st e).1.previousProps = st.previousProps ∧
      (handleError st e).1.errorHandlers = st.errorHandlers ∧
      (handleError st e).1.lifecycle = st.lifecycle ∧
      (handleError st e).1.log = st.log ++ [e] ∧
      (handleError st e).2 = none) ∧
    (∀ p, st.errorHandlers = some p →
      (handleError st e).1.previousProps =
        some (p ++ Obj.ofList [("error", Value.vErr e)]) ∧
      (handleError st e).1.errorHandlers = st.errorHandlers ∧
      (handleError st e).1.log = st.log ∧
      (handleError st e).2 =
        some
          { fn := Obj.get p handlerKey
            arg := p ++
              Obj.ofList
                [("error", Value.vErr e),
                 ("render", Value.vRecoveryRender)] }) := by
  constructor
  · intro h
    simp [handleError, h]
  · intro p h
    simp [handleError, h]

theorem C1_handleError_contract_witness :
    (handleError
        { baseState with
            errorHandlers := some (Obj.ofList [(handlerKey, Value.vFn 7)]) }
        (ErrorV.plain "boom")).2 =
      some
        { fn := some (Value.vFn 7)
          arg :=
            Obj.ofList [(handlerKey, Value.vFn 7)] ++
              Obj.ofList
                [("error", Value.vErr (ErrorV.plain "boom")),
                 ("render", Value.vRecoveryRender)] } := by
  have h := (C1_handleError_contract
      { baseState with
          errorHandlers := some (Obj.ofList [(handlerKey, Value.vFn 7)]) }
      (ErrorV.plain "boom")).2 (Obj.ofList [(handlerKey, Value.vFn 7)]) rfl
  rw [h.2.2.2]
  decide

/-- C3: the pipeline executor computes its result by the left-to-right fold
of the middleware list over an accumulator starting at the initial props,
awaiting each step's (possibly suspended) value before running the next
step and passing each step the accumulated props extended with the
self-reference field; when every step completes without throwing, the final
snapshot is both returned and persisted as the instance's previous props. -/
theorem C3_pipeline_fold (mids : List Middleware) (init : Obj)
    (st : CompState) :
    (handleMiddleware mids init st).2 = pureFold mids init ∧
    (∀ p, pureFold mids init = Except.ok p →
      (handleMiddleware mids init st).1.previousProps = some p ∧
      (handleMiddleware mids init st).2 = Except.ok p) := by
  refine ⟨handleMiddleware_snd mids init st, ?_⟩
  intro p hp
  have hs := handleMiddleware_snd mids init st
  rw [hp] at hs
  rcases hr : runSteps mids init st with ⟨st1, r⟩
  cases r with
  | ok q =>
    have hq : q = p := by
      have := runSteps_snd mids init st
      rw [hr, hp] at this
      simpa using this
    subst hq
    exact ⟨by simp [handleMiddleware, hr], hs⟩
  | error e2 =>
    exfalso
    simp [handleMiddleware, hr] at hs

def c3Mid : Middleware :=
  fun p => MidOut.now (p ++ Obj.ofList [("a", Value.vNum 1)])

theorem C3_pipeline_fold_witness :
    (handleMiddleware [c3Mid] Obj.onil baseState).1.previousProps =
      some
        (Obj.ofList
          [("props", Value.vObj Obj.onil), ("a", Value.vNum 1)]) :=
  ((C3_pipeline_fold [c3Mid] Obj.onil baseState).2
    (Obj.ofList [("props", Value.vObj Obj.onil), ("a", Value.vNum 1)])
    rfl).1

/-- C5: a step that throws (or whose suspended value rejects) aborts the
fold immediately at that step — the result does not depend on the remaining
middleware — and a failed run never updates the previous-props slot, which
retains exactly its value from before the run; the only later write is the
Error Recovery Controller's explicit persist of the registered snapshot
merged with the error. -/
theorem C5_failed_run_no_persist (mids : List Middleware) (init : Obj)
    (st : CompState) :
    (∀ e, pureFold mids init = Except.error e →
      (handleMiddleware mids init st).1.previousProps = st.previousProps ∧
      (handleMiddleware mids init st).2 = Except.error e) ∧
    (∀ (m : Middleware) (rest : List Middleware) (accum : Obj) (e : ErrorV),
      m (stepProps accum) = MidOut.throws e →
      runSteps (m :: rest) accum st = (st, Except.error e)) ∧
    (∀ (m : Middleware) (rest : List Middleware) (accum : Obj) (e : ErrorV),
      m (stepProps accum) = MidOut.later (Except.error e) →
      runSteps (m :: rest) accum st = (st, Except.error e)) ∧
    (∀ e, st.errorHandlers = none →
      (handleError st e).1.previousProps = st.previousProps) ∧
    (∀ e p, st.errorHandlers = some p →
      (handleError st e).1.previousProps =
        some (p ++ Obj.ofList [("error", Value.vErr e)])) := by
  refine ⟨?_, ?_, ?_, ?_, ?_⟩
  · intro e he
    have hs := handleMiddleware_snd mids init st
    rw [he] at hs
    exact ⟨handleMiddleware_error_previousProps mids init st e hs, hs⟩
  · intro m rest accum e hm
    simp [runSteps, hm]
  · intro m rest accum e hm
    simp [runSteps, hm]
  · intro e h
    simp [handleError, h]
  · intro e p h
    simp [handleError, h]

def c5Mid : Middleware := fun _ => MidOut.throws (ErrorV.plain "boom")

theorem C5_failed_run_no_persist_witness :
    (handleMiddleware [c5Mid] Obj.onil
        { baseState with
            previousProps := some (Obj.ofList [("a", Value.vNum 1)]) }).1.previousProps =
      some (Obj.ofList [("a", Value.vNum 1)]) :=
  (((C5_failed_run_no_persist [c5Mid] Obj.onil
      { baseState with
          previousProps := some (Obj.ofList [("a", Value.vNum 1)]) }).1
    (ErrorV.plain "boom") rfl)).1

def c4Mid : Middleware :=
  fun _ =>
    MidOut.later (Except.ok (Obj.ofList [(handlerKey, Value.vFn 3)]))

/-- C4 counterexample: a middleware step that suspends and resolves to a
marker-bearing snapshot.  Its awaited result carries the recovery-handler
marker, yet after the run the instance's registration is still empty: the
executor's probe is applied to the step's immediate (promise) value, not to
the awaited result, contradicting the claim's "including when the step
suspends and the result must be awaited". -/
theorem C4_counterexample :
    awaitStep (c4Mid (stepProps Obj.onil)) =
      Except.ok (Obj.ofList [(handlerKey, Value.vFn 3)]) ∧
    Obj.hasKey (Obj.ofList [(handlerKey, Value.vFn 3)]) handlerKey = true ∧
    (runSteps [c4Mid] Obj.onil baseState).1.errorHandlers = none ∧
    (runSteps [c4Mid] Obj.onil baseState).2 =
      Except.ok (Obj.ofList [(handlerKey, Value.vFn 3)]) := by
  refine ⟨rfl, by decide, by decide, rfl⟩

/-- C4 amended: after each step's result is produced the executor inspects
the step's immediate return value for the recovery-handler marker: a
synchronously returned marker-bearing snapshot overwrites the registration
with the entire snapshot (handler included), while a suspended step's
resolved value is never inspected (the probe applies to the promise itself,
which never carries the key) and leaves the registration alone; no
operation ever clears the registration, so if present it equals the
snapshot of the last synchronously returned marker-bearing step, possibly
from an earlier pass than the currently failing one. -/
theorem C4_registration_amended (mids : List Middleware) (accum : Obj)
    (st : CompState) :
    (runSteps mids accum st).1.errorHandlers =
      lastReg mids accum st.errorHandlers ∧
    (∀ (m : Middleware) (rest : List Middleware) (o : Obj),
      m (stepProps accum) = MidOut.now o →
      Obj.hasKey o handlerKey = true →
      runSteps (m :: rest) accum st =
        runSteps rest o { st with errorHandlers := some o }) ∧
    (∀ (m : Middleware) (rest : List Middleware) (o : Obj),
      m (stepProps accum) = MidOut.later (Except.ok o) →
      runSteps (m :: rest) accum st = runSteps rest o st) ∧
    (st.errorHandlers.isSome = true →
      ((runSteps mids accum st).1.errorHandlers).isSome = true) ∧
    (∀ e, (handleError st e).1.errorHandlers = st.errorHandlers) ∧
    (∀ o, st.errorHandlers.isSome = true →
      (((render mids st o).1).errorHandlers).isSome = true) := by
  refine ⟨runSteps_errorHandlers mids accum st, ?_, ?_, ?_, ?_, ?_⟩
  · intro m rest o hm hk
    simp [runSteps, hm, hk]
  · intro m rest o hm
    simp [runSteps, hm]
  · intro h
    rw [runSteps_errorHandlers mids accum st]
    exact lastReg_isSome _ _ _ h
  · intro e
    exact (handleError_fields st e).2.1
  · intro o h
    exact render_errorHandlers_pres mids st o h

def c4SyncMid : Middleware :=
  fun _ => MidOut.now (Obj.ofList [(handlerKey, Value.vFn 5)])

theorem C4_registration_amended_witness :
    runSteps [c4SyncMid] Obj.onil baseState =
      runSteps [] (Obj.ofList [(handlerKey, Value.vFn 5)])
        { baseState with
            errorHandlers := some (Obj.ofList [(handlerKey, Value.vFn 5)]) } :=
  (C4_registration_amended [c4SyncMid] Obj.onil baseState).2.1 c4SyncMid []
    (Obj.ofList [(handlerKey, Value.vFn 5)]) rfl (by decide)

/-- C2: every render() call issued while the instance's lifecycle state is
error returns immediately with the whole per-instance state untouched — no
task is added to the registry, no view-render side effect occurs, no visual
flag changes, no notification is emitted — and, the outcome being
independent of the middleware list, no middleware step is executed; any
sequence of such calls leaves the state (still in error) unchanged until a
recovery handler resets it to normal. -/
theorem C2_render_inert_in_error (mids : List Middleware) (st : CompState)
    (o : Obj) (calls : List Obj) (h : st.lifecycle = Lifecycle.error) :
    render mids st o = (st, RenderOutcome.refused) ∧
    renderSeq mids st calls = st := by
  have hone : ∀ o1, render mids st o1 = (st, RenderOutcome.refused) := by
    intro o1
    simp [render, h]
  refine ⟨hone o, ?_⟩
  induction calls with
  | nil => rfl
  | cons c cs ih =>
    show renderSeq mids ((render mids st c).1) cs = st
    rw [hone c]
    exact ih

theorem C2_render_inert_in_error_witness :
    render [] { baseState with lifecycle := Lifecycle.error } Obj.onil =
      ({ baseState with lifecycle := Lifecycle.error },
       RenderOutcome.refused) :=
  (C2_render_inert_in_error []
    { baseState with lifecycle := Lifecycle.error } Obj.onil
    [Obj.onil, Obj.onil] rfl).1

/-- C6: the render callback supplied to a recovery handler, when called
with override props, first transitions the lifecycle state to normal and
then delegates to the instance's render entry point with exactly those
override props; hence a handler calling it starts a new render pass — never
refused, registering a fresh task — in the normal state using the supplied
overrides. -/
theorem C6_recovery_callback (mids : List Middleware) (st : CompState)
    (mergeProps : Obj) :
    recoveryRender mids st mergeProps =
      render mids { st with lifecycle := Lifecycle.normal } mergeProps ∧
    ({ st with lifecycle := Lifecycle.normal } : CompState).lifecycle =
      Lifecycle.normal ∧
    (recoveryRender mids st mergeProps).2 ≠ RenderOutcome.refused ∧
    ((recoveryRender mids st mergeProps).1).nextTask = st.nextTask + 1 := by
  refine ⟨rfl, rfl, ?_, ?_⟩
  all_goals
    rcases hm : handleMiddleware mids
        (getInitialProps st.nodeId st.previousProps mergeProps st.nextTask)
        { st with lifecycle := Lifecycle.normal,
                  queue := st.queue ++ [st.nextTask],
                  nextTask := st.nextTask + 1 } with ⟨st2, r⟩
  all_goals
    have hnt : st2.nextTask = st.nextTask + 1 := by
      have h5 := (handleMiddleware_fields mids
        (getInitialProps st.nodeId st.previousProps mergeProps st.nextTask)
        { st with lifecycle := Lifecycle.normal,
                  queue := st.queue ++ [st.nextTask],
                  nextTask := st.nextTask + 1 }).2.2.1
      rw [hm] at h5
      exact h5
  all_goals cases r with
  | ok props =>
    cases hat : st2.attached <;>
      simp [recoveryRender, render, hm, hat, hnt]
  | error e =>
    cases e with
    | cancel => simp [recoveryRender, render, hm, hnt]
    | plain msg =>
      have hh := (handleError_fields { st2 with lifecycle := Lifecycle.error }
        (ErrorV.plain msg)).2.2.2.1
      first
        | (simp [recoveryRender, render, hm]
           done)
        | (simp [recoveryRender, render, hm]
           rw [hh]
           exact hnt)

def abortMid : Middleware :=
  fun _ =>
    match callAbort with
    | Except.error e => MidOut.throws e
    | Except.ok _ => MidOut.now Obj.onil

/-- C7: a render pass in which the cancellation signal is raised from any
middleware position ends silently: the outcome is cancelled, the lifecycle
state does not transition, the Error Recovery Controller is never invoked
(no handler call and no diagnostic log), no outbound notification is
emitted, and the previous props are untouched; cancellation is recognised
by the error's kind — a plain error is routed to the error path whatever
its message text says. -/
theorem C7_cancellation_silent (mids : List Middleware) (st : CompState)
    (o : Obj) (hn : st.lifecycle = Lifecycle.normal)
    (hc : pureFold mids
        (getInitialProps st.nodeId st.previousProps o st.nextTask) =
      Except.error ErrorV.cancel) :
    (render mids st o).2 = RenderOutcome.cancelled ∧
    (render mids st o).1.lifecycle = st.lifecycle ∧
    (render mids st o).1.log = st.log ∧
    (render mids st o).1.notifications = st.notifications ∧
    (render mids st o).1.previousProps = st.previousProps ∧
    (∀ (mids2 : List Middleware) (s : String),
      pureFold mids2
          (getInitialProps st.nodeId st.previousProps o st.nextTask) =
        Except.error (ErrorV.plain s) →
      ((render mids2 st o).1).lifecycle = Lifecycle.error) := by
  have hlc : ¬ st.lifecycle = Lifecycle.error := by
    rw [hn]
    intro hfalse
    cases hfalse
  rcases hm : handleMiddleware mids
      (getInitialProps st.nodeId st.previousProps o st.nextTask)
      { st with queue := st.queue ++ [st.nextTask],
                nextTask := st.nextTask + 1 } with ⟨st2, r⟩
  have hr : r = Except.error ErrorV.cancel := by
    have h5 := handleMiddleware_snd mids
      (getInitialProps st.nodeId st.previousProps o st.nextTask)
      { st with queue := st.queue ++ [st.nextTask],
                nextTask := st.nextTask + 1 }
    rw [hm, hc] at h5
    exact h5
  subst hr
  have hf := handleMiddleware_fields mids
    (getInitialProps st.nodeId st.previousProps o st.nextTask)
    { st with queue := st.queue ++ [st.nextTask],
              nextTask := st.nextTask + 1 }
  rw [hm] at hf
  have hp := handleMiddleware_error_previousProps mids
    (getInitialProps st.nodeId st.previousProps o st.nextTask)
    { st with queue := st.queue ++ [st.nextTask],
              nextTask := st.nextTask + 1 } ErrorV.cancel
    (by rw [hm])
  rw [hm] at hp
  refine ⟨?_, ?_, ?_, ?_, ?_, ?_⟩
  · simp [render, hlc, hm]
  · simp only [render, hlc, if_neg hlc, hm]
    simpa using hf.1
  · simp only [render, hlc, if_neg hlc, hm]
    simpa using hf.2.2.2.2.1
  · simp only [render, hlc, if_neg hlc, hm]
    simpa using hf.2.2.2.2.2.1
  · simp only [render, hlc, if_neg hlc, hm]
    simpa using hp
  · intro mids2 s hc2
    rcases hm2 : handleMiddleware mids2
        (getInitialProps st.nodeId st.previousProps o st.nextTask)
        { st with queue := st.queue ++ [st.nextTask],
                  nextTask := st.nextTask + 1 } with ⟨st3, r2⟩
    have hr2 : r2 = Except.error (ErrorV.plain s) := by
      have h6 := handleMiddleware_snd mids2
        (getInitialProps st.nodeId st.previousProps o st.nextTask)
        { st with queue := st.queue ++ [st.nextTask],
                  nextTask := st.nextTask + 1 }
      rw [hm2, hc2] at h6
      exact h6
    subst hr2
    have hf2 := handleMiddleware_fields mids2
      (getInitialProps st.nodeId st.previousProps o st.nextTask)
      { st with queue := st.queue ++ [st.nextTask],
                nextTask := st.nextTask + 1 }
    rw [hm2] at hf2
    have hhe := handleError_fields { st3 with lifecycle := Lifecycle.error }
      (ErrorV.plain s)
    simp only [render, hlc, if_neg hlc, hm2]
    simpa using hhe.1

theorem C7_cancellation_silent_witness :
    (render [abortMid] baseState Obj.onil).2 = RenderOutcome.cancelled ∧
    (render [abortMid] baseState Obj.onil).1.lifecycle = Lifecycle.normal := by
  have h := C7_cancellation_silent [abortMid] baseState Obj.onil rfl rfl
  exact ⟨h.1, h.2.1⟩

end Switzerland
